import Mathlib

/-!
Verification of the tool-invocation layer of the compound-selection backend:
the cross-process sliding-window rate limiter and the disk-backed tool cache
in `backend/agentic_system/tools/tool_utils.py`, and the error-as-data
convention of the ChEMBL client in
`backend/agentic_system/tools/chembl_tools.py`.

Timestamps (Python `time.time()` floats) are modelled as rationals.
Because `FileBasedRateLimiter._acquire_sync` holds the exclusive `fcntl`
lock for its whole body (including the sleep), concurrent calls from any
number of threads or processes are serialized; a sequential trace over the
shared state is therefore a faithful model of concurrent executions.
-/

namespace ToolUtils

/-- Events emitted by one execution of `FileBasedRateLimiter._acquire_sync`,
in program order: the `fcntl.flock(LOCK_EX)` acquisition, the `json.load`,
the optional `time.sleep(wait_time)`, the write-back, and the
`fcntl.flock(LOCK_UN)` release. -/
inductive RLEvent where
  | lockAcquire
  | readState
  | sleep (d : ℚ)
  | writeState
  | lockRelease
deriving DecidableEq, Repr

/-- Whether an event is the `time.sleep` call. -/
def RLEvent.isSleep : RLEvent → Bool
  | .sleep _ => true
  | _ => false

/-- Outcome of one `_acquire_sync` call: the `requests` list written back to
the state file, the final value of `current_time` (which is also the
timestamp appended by this call), and the event trace. -/
structure AcquireOutcome where
  requests : List ℚ
  finalTime : ℚ
  events : List RLEvent
deriving DecidableEq, Repr

/-- The pruning step
`data["requests"] = [req for req in data["requests"] if current_time - req < self.time_window]`. -/
def pruneReqs (timeWindow : ℚ) (now : ℚ) (reqs : List ℚ) : List ℚ :=
  reqs.filter (fun req => decide (now - req < timeWindow))

/-- `FileBasedRateLimiter._acquire_sync` (tool_utils.py lines 164-204), from
the state already read out of the file. `now` is the first `time.time()`
reading; `slack ≥ 0` models that `time.sleep(wait_time)` sleeps at least
`wait_time` and the clock is then re-read, so the second `time.time()`
reading is `now + wait_time + slack`. Returns `none` exactly when the
Python raises `IndexError` on `data["requests"][0]` (possible only when
`max_requests = 0` and the pruned list is empty). -/
def acquireSync (maxRequests : ℕ) (timeWindow : ℚ) (reqs : List ℚ)
    (now slack : ℚ) : Option AcquireOutcome :=
  let pruned := pruneReqs timeWindow now reqs
  if maxRequests ≤ pruned.length then
    match pruned with
    | [] => none
    | oldest :: rest =>
      let waitTime := timeWindow - (now - oldest)
      if 0 < waitTime then
        let now2 := now + waitTime + slack
        let repruned := pruneReqs timeWindow now2 (oldest :: rest)
        some ⟨repruned ++ [now2], now2,
          [.lockAcquire, .readState, .sleep waitTime, .writeState, .lockRelease]⟩
      else
        some ⟨(oldest :: rest) ++ [now], now,
          [.lockAcquire, .readState, .writeState, .lockRelease]⟩
  else
    some ⟨pruned ++ [now], now,
      [.lockAcquire, .readState, .writeState, .lockRelease]⟩

/-- State of the limiter file `/tmp/<name>_rate_limiter.json`: missing,
present but unparseable by `json.load`, or holding a parseable
`requests` array. -/
inductive FileState where
  | missing
  | corrupt
  | valid (reqs : List ℚ)

/-- `_acquire_sync` including its treatment of the state file: a missing
file is first created as `{"requests": []}` and then read back empty; a
corrupt file makes `json.load` raise `json.JSONDecodeError`, which no
handler catches (the `finally` only releases the lock), so the exception
propagates to the caller. -/
def acquireSyncFile (maxRequests : ℕ) (timeWindow : ℚ) (fs : FileState)
    (now slack : ℚ) : Except String AcquireOutcome :=
  match fs with
  | .missing =>
    match acquireSync maxRequests timeWindow [] now slack with
    | some o => .ok o
    | none => .error "IndexError"
  | .corrupt => .error "JSONDecodeError"
  | .valid reqs =>
    match acquireSync maxRequests timeWindow reqs now slack with
    | some o => .ok o
    | none => .error "IndexError"

/-- A sequence of completed `_acquire_sync` calls over the shared state,
starting from the given `requests` list; each call is a pair of its first
`time.time()` reading and its sleep slack. -/
def runAcquires (maxRequests : ℕ) (timeWindow : ℚ) :
    List ℚ → List (ℚ × ℚ) → Option (List ℚ)
  | reqs, [] => some reqs
  | reqs, c :: cs =>
    match acquireSync maxRequests timeWindow reqs c.1 c.2 with
    | none => none
    | some o => runAcquires maxRequests timeWindow o.requests cs

/-- Number of recorded timestamps lying in the closed trailing window
`[now - timeWindow, now]`. -/
def countInWindow (timeWindow now : ℚ) (reqs : List ℚ) : ℕ :=
  (reqs.filter (fun req => decide (now - timeWindow ≤ req) && decide (req ≤ now))).length

/-- Scans an event trace tracking whether the exclusive lock is held and
reports whether some sleep event occurs while it is held. -/
def holdsLockWhileSleeping : Bool → List RLEvent → Bool
  | _, [] => false
  | _, .lockAcquire :: es => holdsLockWhileSleeping true es
  | _, .lockRelease :: es => holdsLockWhileSleeping false es
  | held, .sleep _ :: es => held || holdsLockWhileSleeping held es
  | held, .readState :: es => holdsLockWhileSleeping held es
  | held, .writeState :: es => holdsLockWhileSleeping held es

/-- A Python argument value as passed to a `tool_cache`-wrapped function,
including container values (lists and dicts, populated with integers for
concreteness) that are unhashable in Python. Hashability is irrelevant to
the wrapper: the key tuple is built without calling `hash`, and diskcache
serializes keys via `Disk.put`, which pickles non-primitive keys and
compares the stored bytes — it never hashes them — so every representable
argument value yields a usable cache key. -/
inductive PyArg where
  | int (n : ℤ)
  | str (s : String)
  | list (xs : List ℤ)
  | dict (xs : List (String × ℤ))
deriving DecidableEq, Repr

/-- The cache key `(func.__name__, args, tuple(sorted(kwargs.items())))`
built by the wrapper; keyword arguments are modelled as part of the
argument list. Key equality stands for equality of the pickled key bytes
stored by diskcache. -/
abbrev CacheKey := String × List PyArg

/-- The `diskcache.Cache` store: entries carry the key, the value, and the
absolute expiration time recorded by the library. -/
structure DiskCache (V : Type) where
  entries : List (CacheKey × V × ℚ)

/-- Find the entry stored under a key (value and absolute expiry). -/
def DiskCache.lookup {V : Type} (c : DiskCache V) (k : CacheKey) : Option (V × ℚ) :=
  (c.entries.find? (fun e => decide (e.1 = k))).map (fun e => e.2)

/-- `diskcache.Cache.set(key, value, expire=e)`: per the diskcache API the
`expire` argument is the number of SECONDS until expiry, so the stored
absolute expiration time is `now + e`. -/
def DiskCache.set {V : Type} (c : DiskCache V) (k : CacheKey) (v : V)
    (now expire : ℚ) : DiskCache V :=
  ⟨(k, v, now + expire) :: c.entries.filter (fun e => !decide (e.1 = k))⟩

/-- The 3-day TTL hard-coded in the wrapper: `3 * 24 * 60 * 60` seconds. -/
def TOOL_CACHE_TTL : ℚ := 3 * 24 * 60 * 60

/-- One call through the `tool_cache` wrapper (tool_utils.py lines
128-140). Returns the result, the cache state after the call, and whether
the wrapped function was invoked. Building the key tuple and looking it up
with `key in cache` always succeed — diskcache pickles the key rather than
hashing it, so unhashable argument values (lists, dicts) are stored and
served like any other. On a hit, `cache[key]` is returned; on a miss the
wrapper computes, sets `expire_time = time.time() + 3*24*60*60` and calls
`cache.set(key, result, expire=expire_time)` — passing this absolute
timestamp as the relative `expire` parameter. -/
def toolCacheCall {V : Type} (name : String) (compute : List PyArg → V)
    (c : DiskCache V) (args : List PyArg) (now : ℚ) :
    V × DiskCache V × Bool :=
  let key : CacheKey := (name, args)
  match c.lookup key with
  | some (v, expAt) =>
    if now < expAt then
      (v, c, false)
    else
      let result := compute args
      let expireTime := now + TOOL_CACHE_TTL
      (result, c.set key result now expireTime, true)
  | none =>
    let result := compute args
    let expireTime := now + TOOL_CACHE_TTL
    (result, c.set key result now expireTime, true)

/-- The undecorated function lifted to the wrapper signature: every call
invokes the function directly and leaves the cache store untouched. -/
def directCall {V : Type} (compute : List PyArg → V) :
    DiskCache V → List PyArg → ℚ → V × DiskCache V × Bool :=
  fun c args _ => (compute args, c, true)

/-- The `tool_cache(name, enabled)` decorator applied to a function
(tool_utils.py lines 121-125): when `enabled` is false the decorator
returns the function unchanged, otherwise it opens the diskcache store and
returns the caching wrapper. -/
def toolCache {V : Type} (name : String) (enabled : Bool)
    (compute : List PyArg → V) :
    DiskCache V → List PyArg → ℚ → V × DiskCache V × Bool :=
  if enabled then toolCacheCall name compute else directCall compute

end ToolUtils

namespace ChemblTools

/-- Outcome of the HTTP exchange inside `ChEMBLClient.get`: a 2xx response
with parsed JSON body, an error status making `response.raise_for_status()`
raise `httpx.HTTPStatusError`, or any other exception raised while
performing the request. -/
inductive RemoteOutcome (α : Type) where
  | ok (body : α)
  | httpStatusError (status : ℕ) (text : String)
  | requestFailed (msg : String)

/-- Return value of `ChEMBLClient.get`: either the parsed response body or
a dict holding a single `"error"` key (modelled by the `error`
constructor). -/
inductive ChemblResult (α : Type) where
  | data (body : α)
  | error (msg : String)
deriving DecidableEq, Repr

/-- `ChEMBLClient.get` (chembl_tools.py lines 33-45): every failure of the
request is converted into an `error` mapping; the function is total, so no
exception reaches the caller from the request path. -/
def clientGet {α : Type} (outcome : RemoteOutcome α) : ChemblResult α :=
  match outcome with
  | .ok body => .data body
  | .httpStatusError status text =>
    .error ("API error: " ++ toString status ++ " - " ++ text.take 100)
  | .requestFailed msg => .error ("Request failed: " ++ msg)

/-- One molecule record of the `/molecule/search.json` response; fields are
optional, mirroring `mol.get("molecule_chembl_id", "Unknown")` and
`mol.get("pref_name", "No name")`. -/
structure MoleculeRec where
  moleculeChemblId : Option String
  prefName : Option String

/-- The `f"{chembl_id} ({pref_name})"` line built for each molecule. -/
def formatCompound (mol : MoleculeRec) : String :=
  mol.moleculeChemblId.getD "Unknown" ++ " (" ++ mol.prefName.getD "No name" ++ ")"

/-- `search_chembl_id` (chembl_tools.py lines 56-89), as a function of the
remote outcome; the response body is the `molecules` array. An `"error"`
key in the client result is rendered as an error string return value. -/
def searchChemblId (query : String) (lim : ℕ)
    (outcome : RemoteOutcome (List MoleculeRec)) : String :=
  match clientGet outcome with
  | .error msg => "Error searching for compound: " ++ msg
  | .data molecules =>
    if molecules.isEmpty then
      "No compounds found matching \x27" ++ query ++ "\x27"
    else
      let compounds := (molecules.take lim).map formatCompound
      "Found " ++ toString compounds.length ++ " compound(s) matching \x27" ++
        query ++ "\x27: \n - " ++ String.intercalate "\n - " compounds

/-- One record of the `/drug.json` response. The source tests
`drug.get("first_approval")` for truthiness, so the field is modelled as a
string with `""` standing for an absent or falsy value. -/
structure DrugRec where
  firstApproval : String

/-- One record of the `/mechanism.json` response; the source reads each
field with `mech.get(..., "")`. -/
structure MechanismRec where
  mechanismOfAction : String
  actionType : String
  targetChemblId : String

/-- One record of the `/drug_indication.json` response; fields read with
`ind.get(..., "")`. -/
structure IndicationRec where
  efoTerm : String
  maxPhaseForInd : String
  meshHeading : String

/-- One record of the `/drug_warning.json` response; fields read with
`warn.get(..., "")`. -/
structure WarningRec where
  warningType : String
  warningDescription : String

/-- Section 1 of `get_drug_info_summary` (chembl_tools.py lines 300-314):
if the drug lookup did not error and returned a non-empty `drugs` list
with a truthy `first_approval`, report the approval; in every other case —
including a remote error — report `"... is not an approved drug"`. -/
def drugApprovalLine (chemblId : String)
    (res : ChemblResult (List DrugRec)) : String :=
  match res with
  | .data (drug :: _) =>
    if drug.firstApproval ≠ "" then
      chemblId ++ " is an approved drug (first approved: " ++
        drug.firstApproval ++ ")"
    else
      chemblId ++ " is not an approved drug"
  | .data [] => chemblId ++ " is not an approved drug"
  | .error _ => chemblId ++ " is not an approved drug"

/-- The per-mechanism line of section 2 (lines 325-335). -/
def mechanismLine (mech : MechanismRec) : String :=
  mech.mechanismOfAction ++
    (if mech.actionType ≠ "" then " (" ++ mech.actionType ++ ")" else "") ++
    (if mech.targetChemblId ≠ "" then " targeting " ++ mech.targetChemblId
     else "")

/-- Section 2 of `get_drug_info_summary` (lines 316-337): skipped entirely
when the mechanism lookup errors or returns no records with a truthy
`mechanism_of_action`. -/
def mechanismSection (res : ChemblResult (List MechanismRec)) : List String :=
  match res with
  | .error _ => []
  | .data mechanisms =>
    if mechanisms.isEmpty then []
    else
      let moaSummaries :=
        (mechanisms.filter (fun m => m.mechanismOfAction ≠ "")).map mechanismLine
      if moaSummaries.isEmpty then []
      else ["Mechanisms of action: " ++ String.intercalate "; " moaSummaries]

/-- The per-indication line of section 3 (lines 349-359). -/
def indicationLine (ind : IndicationRec) : String :=
  ind.efoTerm ++
    (if ind.maxPhaseForInd ≠ "" then " (Phase " ++ ind.maxPhaseForInd ++ ")"
     else "") ++
    (if ind.meshHeading ≠ "" ∧ ind.meshHeading ≠ ind.efoTerm then
      " (" ++ ind.meshHeading ++ ")"
     else "")

/-- Section 3 of `get_drug_info_summary` (lines 339-361). -/
def indicationSection (res : ChemblResult (List IndicationRec)) : List String :=
  match res with
  | .error _ => []
  | .data indications =>
    if indications.isEmpty then []
    else
      let indSummaries :=
        (indications.filter (fun i => i.efoTerm ≠ "")).map indicationLine
      if indSummaries.isEmpty then []
      else ["Drug indications: " ++ String.intercalate ", " indSummaries]

/-- The per-warning line of section 4 (lines 373-380). -/
def warningLine (warn : WarningRec) : String :=
  if warn.warningType ≠ "" then
    warn.warningType ++ ": " ++ warn.warningDescription
  else
    warn.warningDescription

/-- Section 4 of `get_drug_info_summary` (lines 363-382). -/
def warningSection (res : ChemblResult (List WarningRec)) : List String :=
  match res with
  | .error _ => []
  | .data warns =>
    if warns.isEmpty then []
    else
      let warnSummaries :=
        (warns.filter (fun w => w.warningDescription ≠ "")).map warningLine
      if warnSummaries.isEmpty then []
      else ["Drug warnings: " ++ String.intercalate "; " warnSummaries]

/-- `get_drug_info_summary` (chembl_tools.py lines 287-387), as a function
of the four remote outcomes of its sequential `chembl_client.get` calls.
Section 1 always contributes a line, so the final
`"No drug information found..."` fallback is unreachable but kept for
fidelity. -/
def getDrugInfoSummary (chemblId : String)
    (drugOutcome : RemoteOutcome (List DrugRec))
    (moaOutcome : RemoteOutcome (List MechanismRec))
    (indOutcome : RemoteOutcome (List IndicationRec))
    (warnOutcome : RemoteOutcome (List WarningRec)) : String :=
  let summaries :=
    [drugApprovalLine chemblId (clientGet drugOutcome)] ++
    mechanismSection (clientGet moaOutcome) ++
    indicationSection (clientGet indOutcome) ++
    warningSection (clientGet warnOutcome)
  if summaries.isEmpty then
    "No drug information found for " ++ chemblId ++
      " - this may not be an approved drug or drug candidate"
  else
    String.intercalate "\n\n" summaries

end ChemblTools

namespace ToolUtils

theorem pruneReqs_length_le (W now : ℚ) (reqs : List ℚ) :
    (pruneReqs W now reqs).length ≤ reqs.length :=
  List.length_filter_le _ _

theorem mem_pruneReqs {W now r : ℚ} {reqs : List ℚ}
    (h : r ∈ pruneReqs W now reqs) : r ∈ reqs ∧ now - r < W := by
  unfold pruneReqs at h
  have := List.mem_filter.mp h
  exact ⟨this.1, of_decide_eq_true this.2⟩

theorem countInWindow_le_length (W now : ℚ) (reqs : List ℚ) :
    countInWindow W now reqs ≤ reqs.length :=
  List.length_filter_le _ _

theorem acquireSync_finalTime_ge {R : ℕ} {W : ℚ} {reqs : List ℚ}
    {now slack : ℚ} {o : AcquireOutcome} (hslack : 0 ≤ slack)
    (h : acquireSync R W reqs now slack = some o) : now ≤ o.finalTime := by
  simp only [acquireSync] at h
  split at h
  · split at h
    · exact absurd h (by simp)
    · split at h
      · rename_i hw
        obtain rfl := (Option.some.injEq _ _).mp h
        simp only
        linarith
      · obtain rfl := (Option.some.injEq _ _).mp h
        exact le_refl _
  · obtain rfl := (Option.some.injEq _ _).mp h
    exact le_refl _

theorem acquireSync_length {R : ℕ} {W : ℚ} {reqs : List ℚ}
    {now slack : ℚ} {o : AcquireOutcome} (hlen : reqs.length ≤ R)
    (hslack : 0 ≤ slack) (h : acquireSync R W reqs now slack = some o) :
    o.requests.length ≤ R := by
  have hple : (pruneReqs W now reqs).length ≤ R :=
    le_trans (pruneReqs_length_le W now reqs) hlen
  simp only [acquireSync] at h
  split at h
  · rename_i hge
    split at h
    · exact absurd h (by simp)
    · rename_i oldest rest hp
      split at h
      · rename_i hw
        obtain rfl := (Option.some.injEq _ _).mp h
        have holdest : ¬ (now + (W - (now - oldest)) + slack - oldest < W) := by
          push_neg
          linarith
        have hrep : pruneReqs W (now + (W - (now - oldest)) + slack) (oldest :: rest) =
            pruneReqs W (now + (W - (now - oldest)) + slack) rest := by
          unfold pruneReqs
          rw [List.filter_cons]
          simp [holdest]
        have hrest : rest.length + 1 ≤ R := by
          have := hple
          rw [hp] at this
          simpa using this
        simp only [List.length_append, List.length_cons, List.length_nil, hrep]
        have : (pruneReqs W (now + (W - (now - oldest)) + slack) rest).length ≤
            rest.length := pruneReqs_length_le _ _ _
        omega
      · rename_i hw
        exfalso
        have hmem : oldest ∈ pruneReqs W now reqs := by
          rw [hp]
          exact List.mem_cons_self _ _
        have := (mem_pruneReqs hmem).2
        have : (0:ℚ) < W - (now - oldest) := by linarith
        exact hw this
  · rename_i hlt
    obtain rfl := (Option.some.injEq _ _).mp h
    simp only [List.length_append, List.length_cons, List.length_nil]
    omega

theorem runAcquires_length {R : ℕ} {W : ℚ} :
    ∀ (calls : List (ℚ × ℚ)) (init : List ℚ),
      (∀ c ∈ calls, 0 ≤ c.2) → init.length ≤ R →
      ∀ final, runAcquires R W init calls = some final → final.length ≤ R := by
  intro calls
  induction calls with
  | nil =>
    intro init _ hinit final h
    simp only [runAcquires] at h
    obtain rfl := (Option.some.injEq _ _).mp h
    exact hinit
  | cons c cs ih =>
    intro init hall hinit final h
    simp only [runAcquires] at h
    cases ha : acquireSync R W init c.1 c.2 with
    | none => rw [ha] at h; exact absurd h (by simp)
    | some o =>
      rw [ha] at h
      exact ih o.requests (fun d hd => hall d (List.mem_cons_of_mem c hd))
        (acquireSync_length hinit (hall c (List.mem_cons_self c cs)) ha) final h

/-- Claim C1: for every sequence of completed `_acquire_sync` calls sharing
one limiter with `max_requests = R` and `time_window = W` (the exclusive
file lock serializes the calls, so any thread/process interleaving is some
sequential trace), after any successful acquire the persisted `requests`
list holds at most `R` timestamps inside the trailing window
`[now - W, now]` — indeed at most `R` timestamps in total, for any
reference point `now`. Applying the theorem to each prefix of a trace
gives the bound immediately after every intermediate acquire. -/
theorem rate_limiter_window_invariant (R : ℕ) (W : ℚ) (calls : List (ℚ × ℚ))
    (hslack : ∀ c ∈ calls, 0 ≤ c.2) (final : List ℚ)
    (h : runAcquires R W [] calls = some final) (now : ℚ) :
    countInWindow W now final ≤ R :=
  le_trans (countInWindow_le_length W now final)
    (runAcquires_length calls [] hslack (by simp) final h)

/-- Witness for C1: three acquires with `R = 2`, `W = 10` at times
`0, 3, 4`; the third sleeps and is recorded at time `10`, leaving state
`[3, 10]`, which holds at most two timestamps in the window `[2, 12]`. -/
theorem rate_limiter_window_invariant_witness :
    countInWindow 10 12 [(3:ℚ), 10] ≤ 2 :=
  rate_limiter_window_invariant 2 10 [(0,0),(3,0),(4,0)] (by norm_num)
    [3, 10] (by norm_num [runAcquires, acquireSync, pruneReqs]) 12

theorem sorted_headI_le {l : List ℚ} (hs : l.Sorted (· ≤ ·)) :
    ∀ x ∈ l, l.headI ≤ x := by
  cases l with
  | nil => intro x hx; exact absurd hx (by simp)
  | cons a t =>
    intro x hx
    rcases List.mem_cons.mp hx with rfl | hxt
    · exact le_refl _
    · exact List.rel_of_sorted_cons hs x hxt

theorem sorted_append_singleton {l : List ℚ} {x : ℚ}
    (hs : l.Sorted (· ≤ ·)) (hle : ∀ y ∈ l, y ≤ x) :
    (l ++ [x]).Sorted (· ≤ ·) := by
  rw [List.Sorted, List.pairwise_append]
  refine ⟨hs, List.pairwise_singleton _ _, ?_⟩
  intro a ha b hb
  rw [List.mem_singleton] at hb
  subst hb
  exact hle a ha

theorem pruneReqs_sorted {W now : ℚ} {reqs : List ℚ}
    (hs : reqs.Sorted (· ≤ ·)) : (pruneReqs W now reqs).Sorted (· ≤ ·) :=
  hs.filter _

/-- Claim C9: `_acquire_sync` preserves sortedness of the persisted
timestamp list. If the incoming `requests` list is sorted ascending and
every entry is at most the current `time.time()` reading, then after the
prune, the optional sleep-and-reprune, and the append of the current time,
the written-back list is still sorted ascending — so `data["requests"][0]`,
read as the oldest request by the wait-time computation, really is the
minimum recorded timestamp. -/
theorem acquire_preserves_sorted (R : ℕ) (W : ℚ) (reqs : List ℚ)
    (now slack : ℚ) (o : AcquireOutcome)
    (hsorted : reqs.Sorted (· ≤ ·)) (hbound : ∀ r ∈ reqs, r ≤ now)
    (hslack : 0 ≤ slack) (h : acquireSync R W reqs now slack = some o) :
    o.requests.Sorted (· ≤ ·) ∧ ∀ r ∈ o.requests, o.requests.headI ≤ r := by
  have hps : (pruneReqs W now reqs).Sorted (· ≤ ·) := pruneReqs_sorted hsorted
  have hpb : ∀ r ∈ pruneReqs W now reqs, r ≤ now :=
    fun r hr => hbound r (mem_pruneReqs hr).1
  suffices hs : o.requests.Sorted (· ≤ ·) from
    ⟨hs, sorted_headI_le hs⟩
  simp only [acquireSync] at h
  split at h
  · split at h
    · exact absurd h (by simp)
    · rename_i oldest rest hp
      split at h
      · rename_i hw
        obtain rfl := (Option.some.injEq _ _).mp h
        simp only
        refine sorted_append_singleton (pruneReqs_sorted ?_) ?_
        · rw [← hp]; exact hps
        · intro y hy
          have hy2 : y ∈ pruneReqs W now reqs := by
            rw [hp]; exact (mem_pruneReqs hy).1
          have := hpb y hy2
          linarith
      · obtain rfl := (Option.some.injEq _ _).mp h
        simp only
        refine sorted_append_singleton ?_ ?_
        · rw [← hp]; exact hps
        · intro y hy
          rw [← hp] at hy
          exact hpb y hy
  · obtain rfl := (Option.some.injEq _ _).mp h
    exact sorted_append_singleton hps hpb

/-- Witness for C9: from sorted state `[0, 3]` at time `4` with `R = 2`,
`W = 10`, the written-back list is `[3, 10]`, sorted with head `3` minimal. -/
theorem acquire_preserves_sorted_witness :
    ([(3:ℚ), 10].Sorted (· ≤ ·)) ∧ ∀ r ∈ [(3:ℚ), 10], [(3:ℚ), 10].headI ≤ r := by
  have h := acquire_preserves_sorted 2 10 [0, 3] 4 0
    ⟨[3, 10], 10, [.lockAcquire, .readState, .sleep 6, .writeState, .lockRelease]⟩
    (by norm_num) (by norm_num) (by norm_num)
    (by norm_num [acquireSync, pruneReqs])
  simpa using h

/-- Claim C4 counterexample: with `max_requests = 1`, `time_window = 2`,
persisted state `[0]` and the call arriving at time `1`, `_acquire_sync`
executes `time.sleep(1)` between `fcntl.flock(LOCK_EX)` and
`fcntl.flock(LOCK_UN)`: the process sleeps while holding the exclusive
lock, so the lock is not held only around the read-modify-write. -/
theorem rate_limiter_sleeps_while_locked_cex :
    (acquireSync 1 2 [(0:ℚ)] 1 0).map
      (fun o => holdsLockWhileSleeping false o.events) = some true := by
  norm_num [acquireSync, pruneReqs, holdsLockWhileSleeping]

/-- Claim C4 (amended): the code holds the exclusive file lock for the
whole body of `_acquire_sync`, including the quota wait — whenever the
event trace of a completed call contains a `time.sleep`, that sleep occurs
while the lock is held. -/
theorem rate_limiter_sleep_only_under_lock (R : ℕ) (W : ℚ) (reqs : List ℚ)
    (now slack : ℚ) (o : AcquireOutcome)
    (h : acquireSync R W reqs now slack = some o)
    (hs : o.events.any RLEvent.isSleep = true) :
    holdsLockWhileSleeping false o.events = true := by
  simp only [acquireSync] at h
  split at h
  · split at h
    · exact absurd h (by simp)
    · split at h
      · obtain rfl := (Option.some.injEq _ _).mp h
        simp [holdsLockWhileSleeping]
      · obtain rfl := (Option.some.injEq _ _).mp h
        simp [RLEvent.isSleep] at hs
  · obtain rfl := (Option.some.injEq _ _).mp h
    simp [RLEvent.isSleep] at hs

/-- Witness for the amended C4 at the counterexample input: the trace of
`acquireSync 1 2 [0] 1 0` is lock-read-sleep-write-unlock and its sleep is
under the lock. -/
theorem rate_limiter_sleep_only_under_lock_witness :
    holdsLockWhileSleeping false
      [RLEvent.lockAcquire, .readState, .sleep 1, .writeState, .lockRelease] = true :=
  rate_limiter_sleep_only_under_lock 1 2 [0] 1 0
    ⟨[2], 2, [.lockAcquire, .readState, .sleep 1, .writeState, .lockRelease]⟩
    (by norm_num [acquireSync, pruneReqs]) (by simp [RLEvent.isSleep])

/-- Claim C3 counterexample: with `max_requests = 3`, `time_window = 1` and
a corrupt (unparseable) state file, `_acquire_sync` does not grant the
permit and return normally: `json.load` raises `json.JSONDecodeError` and
no handler catches it (the `finally` only releases the lock), so the
exception propagates to the caller. -/
theorem rate_limiter_corrupt_state_cex :
    acquireSyncFile 3 1 FileState.corrupt 0 0 = .error "JSONDecodeError" := by
  simp [acquireSyncFile]

/-- Claim C3 (amended): for `max_requests ≥ 1`, a missing state file is
created as `{"requests": []}`, read back as empty, and the permit is
granted normally; but a corrupt state file is NOT treated as empty — the
`json.JSONDecodeError` raised by `json.load` propagates to the caller
(fails closed), and nothing is logged. -/
theorem rate_limiter_missing_ok_corrupt_raises (R : ℕ) (W : ℚ)
    (now slack : ℚ) (hR : 1 ≤ R) :
    acquireSyncFile R W .missing now slack =
      .ok ⟨[now], now, [.lockAcquire, .readState, .writeState, .lockRelease]⟩ ∧
    acquireSyncFile R W .corrupt now slack = .error "JSONDecodeError" := by
  constructor
  · have hR0 : ¬ R ≤ 0 := by omega
    simp [acquireSyncFile, acquireSync, pruneReqs, hR0]
  · simp [acquireSyncFile]

/-- Witness for the amended C3 at `R = 3`, `W = 1`, `now = 5`. -/
theorem rate_limiter_missing_ok_corrupt_raises_witness :
    acquireSyncFile 3 1 .missing 5 0 =
      .ok ⟨[5], 5, [.lockAcquire, .readState, .writeState, .lockRelease]⟩ ∧
    acquireSyncFile 3 1 .corrupt 5 0 = .error "JSONDecodeError" :=
  rate_limiter_missing_ok_corrupt_raises 3 1 5 0 (by omega)

theorem acquireSync_getLast {R : ℕ} {W : ℚ} {reqs : List ℚ}
    {now slack : ℚ} {o : AcquireOutcome}
    (h : acquireSync R W reqs now slack = some o) :
    o.requests.getLast? = some o.finalTime := by
  simp only [acquireSync] at h
  split at h
  · split at h
    · exact absurd h (by simp)
    · split at h
      · obtain rfl := (Option.some.injEq _ _).mp h
        exact List.getLast?_concat _
      · obtain rfl := (Option.some.injEq _ _).mp h
        exact List.getLast?_concat _
  · obtain rfl := (Option.some.injEq _ _).mp h
    exact List.getLast?_concat _

/-- Claim C8: starting from an empty limiter state with `max_requests = 2`
and `time_window = 1`, for three back-to-back acquires (each issued no
earlier than the previous call returned, from one or two processes — the
exclusive lock serializes them), the first call records timestamp `t1` and
the timestamp recorded by the third call (the last element of the final
`requests` list, equal to its final `current_time`) is at least `t1 + 1`:
the third call is not admitted before one full window has elapsed. -/
theorem third_acquire_not_before_window (t1 t2 t3 s1 s2 s3 : ℚ)
    (hs1 : 0 ≤ s1) (hs2 : 0 ≤ s2) (hs3 : 0 ≤ s3)
    (o1 o2 o3 : AcquireOutcome)
    (h1 : acquireSync 2 1 [] t1 s1 = some o1)
    (h12 : o1.finalTime ≤ t2)
    (h2 : acquireSync 2 1 o1.requests t2 s2 = some o2)
    (h23 : o2.finalTime ≤ t3)
    (h3 : acquireSync 2 1 o2.requests t3 s3 = some o3) :
    o1.finalTime = t1 ∧ o3.requests.getLast? = some o3.finalTime ∧
      t1 + 1 ≤ o3.finalTime := by
  -- The first acquire from the empty state records `t1` without waiting.
  have hc1 : acquireSync 2 1 [] t1 s1 =
      some ⟨[t1], t1, [.lockAcquire, .readState, .writeState, .lockRelease]⟩ := by
    norm_num [acquireSync, pruneReqs]
  rw [hc1] at h1
  obtain rfl := (Option.some.injEq _ _).mp h1
  simp only at h12 h2
  refine ⟨rfl, acquireSync_getLast h3, ?_⟩
  have ht23 : t2 ≤ t3 := le_trans (acquireSync_finalTime_ge hs2 h2) h23
  have hfin3 : t3 ≤ o3.finalTime := acquireSync_finalTime_ge hs3 h3
  by_cases hl : t1 + 1 ≤ t3
  · linarith
  · push_neg at hl
    -- The third call arrives inside the first window, so both earlier
    -- timestamps survive the prune and the third call must sleep.
    have hc : t2 - t1 < 1 := by linarith
    have hp2 : pruneReqs 1 t2 [t1] = [t1] := by
      simp [pruneReqs, hc]
    simp only [acquireSync, hp2] at h2
    norm_num at h2
    obtain rfl := h2
    simp only at h23 h3
    have ht3a : t3 - t1 < 1 := by linarith
    have ht3b : t3 - t2 < 1 := by linarith
    have hp3 : pruneReqs 1 t3 [t1, t2] = [t1, t2] := by
      simp [pruneReqs, ht3a, ht3b]
    simp only [acquireSync, hp3] at h3
    have hw : (0:ℚ) < 1 - (t3 - t1) := by linarith
    norm_num [hw] at h3
    obtain rfl := h3
    simp only
    linarith

/-- Witness for C8: acquires at times `0`, `0`, `0` with no oversleep; the
third is recorded at time `1 = 0 + 1`. -/
theorem third_acquire_not_before_window_witness :
    ((⟨[0], 0, [.lockAcquire, .readState, .writeState, .lockRelease]⟩ :
        AcquireOutcome).finalTime = 0) ∧
    (⟨[1], 1, [.lockAcquire, .readState, .sleep 1, .writeState, .lockRelease]⟩ :
        AcquireOutcome).requests.getLast? =
      some (⟨[1], 1, [.lockAcquire, .readState, .sleep 1, .writeState,
        .lockRelease]⟩ : AcquireOutcome).finalTime ∧
    (0:ℚ) + 1 ≤ (⟨[1], 1, [.lockAcquire, .readState, .sleep 1, .writeState,
      .lockRelease]⟩ : AcquireOutcome).finalTime :=
  third_acquire_not_before_window 0 0 0 0 0 0 (by norm_num) (by norm_num)
    (by norm_num)
    ⟨[0], 0, [.lockAcquire, .readState, .writeState, .lockRelease]⟩
    ⟨[0, 0], 0, [.lockAcquire, .readState, .writeState, .lockRelease]⟩
    ⟨[1], 1, [.lockAcquire, .readState, .sleep 1, .writeState, .lockRelease]⟩
    (by norm_num [acquireSync, pruneReqs]) (by norm_num)
    (by norm_num [acquireSync, pruneReqs]) (by norm_num)
    (by norm_num [acquireSync, pruneReqs])

/-- Claim C2 (code bug evidence): the wrapper computes
`expire_time = time.time() + 3*24*60*60` — an ABSOLUTE timestamp — and
passes it to `cache.set(key, result, expire=expire_time)`, whose `expire`
parameter is the number of seconds until expiry. At `now = 1000000` the
entry is therefore stored with absolute expiry
`1000000 + (1000000 + 259200) = 2259200`, not `now + ttl = 1259200`; a
call with the same key at time `1259201`, after the 3-day TTL has fully
elapsed, still returns the cached value with the compute function NOT
re-invoked (third component `false`), contradicting the contract and the
"3-day expiration" comment in the code itself. -/
theorem tool_cache_expiry_bug :
    toolCacheCall "f" (fun _ => (0:ℤ)) ⟨[]⟩ [.int 1] 1000000 =
      (0, ⟨[(("f", [.int 1]), 0, 2259200)]⟩, true) ∧
    (1000000 : ℚ) + TOOL_CACHE_TTL < 1259201 ∧
    toolCacheCall "f" (fun _ => (0:ℤ))
        ⟨[(("f", [.int 1]), 0, 2259200)]⟩ [.int 1] 1259201 =
      (0, ⟨[(("f", [.int 1]), 0, 2259200)]⟩, false) := by
  refine ⟨?_, ?_, ?_⟩
  · norm_num [toolCacheCall, DiskCache.lookup, DiskCache.set, TOOL_CACHE_TTL]
  · norm_num [TOOL_CACHE_TTL]
  · norm_num [toolCacheCall, DiskCache.lookup, TOOL_CACHE_TTL]

/-- Claim C5: two calls through the `tool_cache` wrapper with identical
arguments, the second within the TTL of the entry created by the first
(and no pre-existing entry for the key), invoke the wrapped function
exactly once — the first call computes and stores, the second returns the
identical cached value without invoking the function. -/
theorem tool_cache_idempotent {V : Type} (name : String)
    (compute : List PyArg → V) (c : DiskCache V) (args : List PyArg)
    (t1 t2 : ℚ) (hmiss : c.lookup (name, args) = none)
    (h0 : 0 ≤ t1) (h12 : t1 ≤ t2) (httl : t2 < t1 + TOOL_CACHE_TTL) :
    toolCacheCall name compute c args t1 =
      (compute args,
        c.set (name, args) (compute args) t1 (t1 + TOOL_CACHE_TTL), true) ∧
    toolCacheCall name compute
        (c.set (name, args) (compute args) t1 (t1 + TOOL_CACHE_TTL)) args t2 =
      (compute args,
        c.set (name, args) (compute args) t1 (t1 + TOOL_CACHE_TTL), false) := by
  constructor
  · simp [toolCacheCall, hmiss]
  · have hlt : t2 < t1 + (t1 + TOOL_CACHE_TTL) := by linarith
    simp [toolCacheCall, DiskCache.lookup, DiskCache.set, hlt]

/-- Witness for C5: the concrete scenario of the spec — a `chembl` cache
miss computed at `t = 0` and repeated at `t = 0` (same second) returns the
identical value with the function invoked only by the first call. -/
theorem tool_cache_idempotent_witness :
    toolCacheCall "chembl" (fun _ => (7:ℤ)) ⟨[]⟩
        [.str "lookup", .str "aspirin"] 0 =
      (7, DiskCache.set ⟨[]⟩ ("chembl", [.str "lookup", .str "aspirin"])
        7 0 (0 + TOOL_CACHE_TTL), true) ∧
    toolCacheCall "chembl" (fun _ => (7:ℤ))
        (DiskCache.set ⟨[]⟩ ("chembl", [.str "lookup", .str "aspirin"])
          7 0 (0 + TOOL_CACHE_TTL)) [.str "lookup", .str "aspirin"] 0 =
      (7, DiskCache.set ⟨[]⟩ ("chembl", [.str "lookup", .str "aspirin"])
        7 0 (0 + TOOL_CACHE_TTL), false) :=
  tool_cache_idempotent "chembl" (fun _ => (7:ℤ)) ⟨[]⟩
    [.str "lookup", .str "aspirin"] 0 0 rfl (le_refl 0) (le_refl 0)
    (by norm_num [TOOL_CACHE_TTL])

/-- Claim C6 counterexample: a call with an unhashable argument value (a
Python list) does NOT degrade to direct computation of the wrapped
function. diskcache pickles the key instead of hashing it, so the first
call computes and STORES the entry, and a repeat call within the TTL is
served from the cache with the wrapped function not invoked (third
component `false`) — whereas direct computation of the undecorated
function invokes it on every call (third component `true`). -/
theorem tool_cache_unhashable_cached_cex :
    toolCacheCall "f" (fun _ => (0:ℤ)) ⟨[]⟩ [.list []] 0 =
      (0, ⟨[(("f", [.list []]), 0, 259200)]⟩, true) ∧
    toolCacheCall "f" (fun _ => (0:ℤ))
        ⟨[(("f", [.list []]), 0, 259200)]⟩ [.list []] 1 =
      (0, ⟨[(("f", [.list []]), 0, 259200)]⟩, false) ∧
    directCall (fun _ => (0:ℤ))
        ⟨[(("f", [.list []]), 0, 259200)]⟩ [.list []] 1 =
      (0, ⟨[(("f", [.list []]), 0, 259200)]⟩, true) := by
  refine ⟨?_, ?_, rfl⟩
  · norm_num [toolCacheCall, DiskCache.lookup, DiskCache.set, TOOL_CACHE_TTL]
  · norm_num [toolCacheCall, DiskCache.lookup, TOOL_CACHE_TTL]

/-- Claim C6 (amended): the cache key is usable for every representable
argument value — unhashable mappings and sequences included, since
diskcache serializes keys by pickling and never hashes them — and the
wrapper never fails a call: every call either returns a previously cached
unexpired value without invoking the wrapped function, or invokes it
exactly once, stores the result, and returns it. In particular, calls with
unhashable arguments are cached normally rather than degraded to direct
computation. (Behavior under a corrupted or unavailable store is internal
to the external diskcache library, not decided by this repository.) -/
theorem tool_cache_never_fails {V : Type} (name : String)
    (compute : List PyArg → V) (c : DiskCache V) (args : List PyArg)
    (now : ℚ) :
    (∃ v expAt, c.lookup (name, args) = some (v, expAt) ∧ now < expAt ∧
        toolCacheCall name compute c args now = (v, c, false)) ∨
    toolCacheCall name compute c args now =
      (compute args,
        c.set (name, args) (compute args) now (now + TOOL_CACHE_TTL), true) := by
  cases hl : c.lookup (name, args) with
  | none => right; simp [toolCacheCall, hl]
  | some ve =>
    obtain ⟨v, expAt⟩ := ve
    by_cases hlt : now < expAt
    · left
      exact ⟨v, expAt, rfl, hlt, by simp [toolCacheCall, hl, hlt]⟩
    · right
      simp [toolCacheCall, hl, hlt]

/-- Claim C10: `tool_cache(name, enabled=False)` applied to a function
returns the function itself — the decorator is the identity, every call
goes straight to the function, and the cache state is never consulted or
modified. -/
theorem tool_cache_disabled_identity {V : Type} (name : String)
    (compute : List PyArg → V) :
    toolCache name false compute = directCall compute ∧
    ∀ (c : DiskCache V) (args : List PyArg) (now : ℚ),
      toolCache name false compute c args now = (compute args, c, true) :=
  ⟨rfl, fun _ _ _ => rfl⟩

end ToolUtils

namespace ChemblTools

/-- Claim C7 counterexample: not every tool function built on
`ChEMBLClient.get` converts a remote failure into an error string.
When every remote call of `get_drug_info_summary("CHEMBL25")` fails (e.g.
with the exception message `"timeout"`), the function returns the prose
statement `"CHEMBL25 is not an approved drug"` — lines 305-314 treat an
error mapping the same as a drug with no approval, and lines 321, 345 and
369 silently skip their sections on error — so the result is
indistinguishable from genuine no-data and is not an error string. -/
theorem drug_info_error_not_error_string_cex :
    getDrugInfoSummary "CHEMBL25" (.requestFailed "timeout")
        (.requestFailed "timeout") (.requestFailed "timeout")
        (.requestFailed "timeout") =
      "CHEMBL25 is not an approved drug" ∧
    ("CHEMBL25 is not an approved drug" : String) ≠
      "Error retrieving drug info: Request failed: timeout" := by
  constructor
  · simp only [getDrugInfoSummary, clientGet, drugApprovalLine,
      mechanismSection, indicationSection, warningSection, String.intercalate,
      List.append_nil, List.isEmpty_cons, Bool.false_eq_true, if_false]
    rfl
  · decide

/-- Claim C7 (amended): `ChEMBLClient.get` returns every failure of the
remote request — an HTTP error status (via `raise_for_status`) or any
other exception — as a mapping with an `"error"` key rather than raising,
and `search_chembl_id` converts that into an error string returned as its
result; but not every tool function built on the client does:
`get_drug_info_summary` renders a failed drug lookup as the prose
`"... is not an approved drug"` and silently omits the mechanism,
indication and warning sections, so there a remote failure is delivered as
data that does not surface the error. -/
theorem chembl_error_as_data (s : ℕ) (t m q cid : String) (lim : ℕ) :
    clientGet (RemoteOutcome.httpStatusError s t : RemoteOutcome (List MoleculeRec)) =
      .error ("API error: " ++ toString s ++ " - " ++ t.take 100) ∧
    clientGet (RemoteOutcome.requestFailed m : RemoteOutcome (List MoleculeRec)) =
      .error ("Request failed: " ++ m) ∧
    searchChemblId q lim (.httpStatusError s t) =
      "Error searching for compound: " ++
        ("API error: " ++ toString s ++ " - " ++ t.take 100) ∧
    searchChemblId q lim (.requestFailed m) =
      "Error searching for compound: " ++ ("Request failed: " ++ m) ∧
    getDrugInfoSummary cid (.requestFailed m) (.requestFailed m)
        (.requestFailed m) (.requestFailed m) =
      cid ++ " is not an approved drug" ∧
    getDrugInfoSummary cid (.httpStatusError s t) (.httpStatusError s t)
        (.httpStatusError s t) (.httpStatusError s t) =
      cid ++ " is not an approved drug" := by
  refine ⟨rfl, rfl, rfl, rfl, ?_, ?_⟩ <;>
  · simp only [getDrugInfoSummary, clientGet, drugApprovalLine,
      mechanismSection, indicationSection, warningSection, String.intercalate,
      List.append_nil, List.isEmpty_cons, Bool.false_eq_true, if_false]
    rfl

end ChemblTools
